import Mathlib

/-
Verification of the remote-asset processing pipeline of the
`video_transcriptions` repository (src/index.js) against its
natural-language specification.

The JavaScript source is shallowly embedded: JS strings are modelled as
Lean `String` values manipulated through their `List Char` data (JS code
unit indices and Lean character indices agree on every character the
pipeline inspects, since the braces and extensions involved are ASCII),
the effectful pipeline `transcribeAudio` becomes a pure function over an
explicit environment describing the external collaborators (file system,
Google AI file manager, generative model), and each `throw` site becomes
an `Except.error` with the exact message the source formats.
-/

namespace VideoTranscriptions

/-! ## JS string primitives used by the source -/

/-- Index of the first occurrence of character `c` in `l`, if any.
Models `String.prototype.indexOf` (src/index.js line 191) restricted to a
single-character needle: JS returns `-1` when absent, modelled as `none`. -/
def firstIdxOf : List Char → Char → Option Nat
  | [], _ => none
  | a :: l, c => if a = c then some 0 else (firstIdxOf l c).map (fun i => i + 1)

/-- Index of the last occurrence of character `c` in `l`, if any.
Models `String.prototype.lastIndexOf` (src/index.js line 192). -/
def lastIdxOf (l : List Char) (c : Char) : Option Nat :=
  (firstIdxOf l.reverse c).map (fun k => l.length - 1 - k)

/-- The ECMAScript white-space and line-terminator set recognised by
`String.prototype.trim`. -/
def jsWhitespace (c : Char) : Bool :=
  c == '\t' || c == '\n' || c == '\x0b' || c == '\x0c' || c == '\r' || c == ' ' ||
  c.toNat == 0xa0 || c.toNat == 0x1680 ||
  (decide (0x2000 <= c.toNat) && decide (c.toNat <= 0x200a)) ||
  c.toNat == 0x2028 || c.toNat == 0x2029 || c.toNat == 0x202f || c.toNat == 0x205f ||
  c.toNat == 0x3000 || c.toNat == 0xfeff

/-- Models `String.prototype.trim` (src/index.js line 196): strip leading
and trailing JS whitespace. -/
def jsTrim (l : List Char) : List Char :=
  ((l.dropWhile jsWhitespace).reverse.dropWhile jsWhitespace).reverse

/-! ## ResponseExtractor (src/index.js lines 191-197)

```js
const firstBraceIndex = responseText.indexOf('{');
const lastBraceIndex = responseText.lastIndexOf('}');
if (firstBraceIndex !== -1 && lastBraceIndex !== -1) {
  responseText = responseText.slice(firstBraceIndex, lastBraceIndex + 1).trim();
}
```

`slice(i, j + 1)` keeps the characters at indices `i .. j`, i.e.
`(take (j + 1)).drop i`; when `i > j` JS `slice` yields the empty string,
and so does the list expression. Note that the source guard checks only
that both braces were found, with no comparison of the two indices. -/

/-- The extraction heuristic on character lists, transcribed from
src/index.js lines 191-197. -/
def extractChars (l : List Char) : List Char :=
  match firstIdxOf l '\x7b', lastIdxOf l '\x7d' with
  | some i, some j => jsTrim ((l.take (j + 1)).drop i)
  | _, _ => l

/-- ResponseExtractor: the extraction heuristic applied to a JS string. -/
def extract (s : String) : String :=
  String.mk (extractChars s.data)

/-- Spec-side predicate, transcribed from spec.md §4.5: the heuristic
"applies" when both braces are found *and* the opening index precedes the
closing index. Stated from the spec's words to compare with the source's
guard, which omits the ordering comparison. -/
def specHeuristicApplies (s : String) : Bool :=
  match firstIdxOf s.data '\x7b', lastIdxOf s.data '\x7d' with
  | some i, some j => decide (i < j)
  | _, _ => false

/-! ## MediaDescriptor: getMimeType (src/index.js lines 46-72) -/

/-- Error kinds of the pipeline, one constructor per `throw` site of
src/index.js, each carrying exactly the data the source interpolates into
the thrown message. The `FAILED` branch (line 150) throws a fixed message
with no interpolation, so `remoteProcessingFailed` carries nothing. -/
inductive PipelineError where
  | noApiKey : PipelineError
  | mediaNotFound (path : String) : PipelineError
  | promptNotFound (path : String) : PipelineError
  | unsupportedMediaType (ext : String) : PipelineError
  | uploadFailed (serviceError : String) : PipelineError
  | remoteProcessingFailed : PipelineError
  | generationFailed (serviceError : String) : PipelineError
deriving DecidableEq

/-- The exact message each `throw new Error(...)` of src/index.js formats
(upload and generation failures propagate the service's own message). -/
def errMessage : PipelineError → String
  | .noApiKey =>
      "No se encontró la API_KEY. Por favor, configúrela en el archivo .env como: API_KEY=tu_clave_aqui"
  | .mediaNotFound path =>
      "El archivo a transcribir no existe en la ruta: " ++ path
  | .promptNotFound path =>
      "El archivo de prompt no existe en la ruta: " ++ path
  | .unsupportedMediaType ext =>
      "Tipo de archivo no soportado o desconocido: " ++ ext ++ ". Por favor, proporcione un archivo de audio o video válido."
  | .uploadFailed serviceError => serviceError
  | .remoteProcessingFailed =>
      "El procesamiento del archivo falló en los servidores de Google AI."
  | .generationFailed serviceError => serviceError

/-- Models Node's `path.extname` (POSIX): the substring of the path's last
component from its last `.` to the end; the empty string when the last
component has no `.`, when its only `.` is its first character, or when it
is exactly `".."`; trailing path separators are ignored. -/
def extname (p : String) : String :=
  let base :=
    ((p.data.reverse.dropWhile (fun c => c == '/')).takeWhile (fun c => !(c == '/'))).reverse
  if base = ['.', '.'] then ""
  else
    match lastIdxOf base '.' with
    | none => ""
    | some 0 => ""
    | some (i + 1) => String.mk (base.drop (i + 1))

/-- Models `String.prototype.toLowerCase` character-wise; agrees with the
JS function on every ASCII string, in particular on every extension the
switch of src/index.js compares against. -/
def lowerAscii (s : String) : String :=
  String.mk (s.data.map Char.toLower)

/-- Transcription of `getMimeType` (src/index.js lines 46-72): lower-case
the extension and map it through the switch; unknown extensions throw. -/
def getMimeType (filePath : String) : Except PipelineError String :=
  let ext := lowerAscii (extname filePath)
  if ext = ".mp3" then Except.ok "audio/mp3"
  else if ext = ".wav" then Except.ok "audio/wav"
  else if ext = ".aac" then Except.ok "audio/aac"
  else if ext = ".ogg" then Except.ok "audio/ogg"
  else if ext = ".flac" then Except.ok "audio/flac"
  else if ext = ".mp4" then Except.ok "video/mp4"
  else if ext = ".mpeg" then Except.ok "video/mpeg"
  else if ext = ".mov" then Except.ok "video/quicktime"
  else if ext = ".wmv" then Except.ok "video/x-ms-wmv"
  else if ext = ".avi" then Except.ok "video/x-msvideo"
  else if ext = ".mkv" then Except.ok "video/x-matroska"
  else Except.error (PipelineError.unsupportedMediaType ext)

/-- The fixed extension table as the spec states it (spec.md §4.1),
written from the spec's words for comparison with `getMimeType`. -/
def specMimeTable : List (String × String) :=
  [("mp3", "audio/mp3"), ("wav", "audio/wav"), ("aac", "audio/aac"),
   ("ogg", "audio/ogg"), ("flac", "audio/flac"), ("mp4", "video/mp4"),
   ("mpeg", "video/mpeg"), ("mov", "video/quicktime"), ("wmv", "video/x-ms-wmv"),
   ("avi", "video/x-msvideo"), ("mkv", "video/x-matroska")]

/-! ## The pipeline (src/index.js lines 84-213)

The external collaborators are abstracted into an environment:

* `apiKey` — `process.env.API_KEY` (line 30);
* `mediaExists`, `promptExists` — the two `fs.existsSync` checks
  (lines 100, 104);
* `promptText` — `fs.readFileSync(promptPath)` (line 130);
* `uploadResult` — the outcome of `fileManager.uploadFile` (line 118),
  opaque remote handle or service error;
* `statuses` — the states returned by the successive
  `fileManager.getFile` calls (lines 135, 143); if the list is exhausted
  while every observed state is still `processing`, the source's `while`
  loop has not terminated within the observations provided, and the run
  is modelled as `none`;
* `generation` — the outcome of `model.generateContent(...)` followed by
  `result.response.text()` (lines 169, 183): raw text or service error;
* `dirname` — `__dirname` (line 17), used to build the debug path.

The state names follow the spec's data model (spec.md §3): the SDK enum
`FileState` has members `STATE_UNSPECIFIED`, `PROCESSING`, `ACTIVE`,
`FAILED`, which the spec calls Pending, Processing, Ready, Failed. The
source compares only against `FileState.PROCESSING` (line 138) and
`FileState.FAILED` (line 149). -/

/-- Remote-handle processing states (spec naming; see module comment). -/
inductive FileState where
  | pending : FileState
  | processing : FileState
  | ready : FileState
  | failed : FileState
deriving DecidableEq

/-- The remote handle returned by `uploadFile`: `uploadResult.file` with
the fields the source reads (lines 135, 173-174). -/
structure RemoteFile where
  name : String
  uri : String
  mimeType : String
deriving DecidableEq

/-- Environment describing the external collaborators of one run. -/
structure Env where
  apiKey : Option String
  mediaExists : Bool
  promptExists : Bool
  promptText : String
  uploadResult : Except String RemoteFile
  statuses : List FileState
  generation : Except String String
  dirname : String

/-- Observable events of a run: number of `getFile` status queries, the
sleep durations between them, number of `generateContent` invocations,
and the `fs.writeFileSync` calls as (path, content) pairs in order. -/
structure Trace where
  getFileCalls : Nat
  sleeps : List Nat
  generateCalls : Nat
  writes : List (String × String)
deriving DecidableEq

/-- Trace of a run that fails before polling starts. -/
def Trace.empty : Trace := ⟨0, [], 0, []⟩

/-- The fixed wait between status queries: `setTimeout(resolve, 5000)`
(src/index.js line 141), in milliseconds — the spec's "5 time units". -/
def pollDelayMs : Nat := 5000

/-- `path.join(__dirname, 'debug_response.txt')` (src/index.js line 186). -/
def debugFilePath (dirname : String) : String :=
  dirname ++ "/debug_response.txt"

/-- The polling loop (src/index.js lines 135-144): query, and while the
observed state is `processing`, sleep and re-query. Returns the first
non-`processing` state observed together with the number of sleeps taken,
or `none` when every provided observation is still `processing`. -/
def pollLoop : List FileState → Option (FileState × Nat)
  | [] => none
  | s :: rest =>
    if s = FileState.processing then
      (pollLoop rest).map (fun r => (r.1, r.2 + 1))
    else
      some (s, 0)

/-- Transcription of `transcribeAudio` (src/index.js lines 84-213) over an
environment. Steps in source order: read API key (line 90), existence
checks (lines 100-106), MIME classification (line 109), upload (line 118),
prompt read (line 130), readiness polling (lines 135-144), `FAILED` check
(lines 149-151), generation (line 169) and response text (line 183), debug
write (lines 186-187), brace extraction (lines 191-197), output write
(line 200), return (line 206). Every thrown error is re-thrown unchanged
by the surrounding `catch` (line 211), so the outcome is the thrown error
itself. `none` models a run whose polling loop never observes a
non-`processing` state within `env.statuses`. -/
def transcribeAudio (filePathToTranscribe promptPath outputPath geminiModel : String)
    (env : Env) : Option (Except PipelineError String × Trace) :=
  match env.apiKey with
  | none => some (Except.error PipelineError.noApiKey, Trace.empty)
  | some _apiKey =>
    if env.mediaExists = false then
      some (Except.error (PipelineError.mediaNotFound filePathToTranscribe), Trace.empty)
    else if env.promptExists = false then
      some (Except.error (PipelineError.promptNotFound promptPath), Trace.empty)
    else
      match getMimeType filePathToTranscribe with
      | Except.error e => some (Except.error e, Trace.empty)
      | Except.ok _mimeType =>
        match env.uploadResult with
        | Except.error e => some (Except.error (PipelineError.uploadFailed e), Trace.empty)
        | Except.ok _file =>
          let _prompt := env.promptText
          let _geminiModel := geminiModel
          match pollLoop env.statuses with
          | none => none
          | some (finalState, sleeps) =>
            let pollTrace : Trace :=
              ⟨sleeps + 1, List.replicate sleeps pollDelayMs, 0, []⟩
            if finalState = FileState.failed then
              some (Except.error PipelineError.remoteProcessingFailed, pollTrace)
            else
              match env.generation with
              | Except.error e =>
                some (Except.error (PipelineError.generationFailed e),
                  { pollTrace with generateCalls := 1 })
              | Except.ok responseText =>
                let debugPath := debugFilePath env.dirname
                let extracted := extract responseText
                some (Except.ok extracted,
                  { pollTrace with
                      generateCalls := 1,
                      writes := [(debugPath, responseText), (outputPath, extracted)] })

/-- Substring test used to state facts about error messages: whether
`needle` occurs contiguously in `hay`. -/
def containsStr (hay needle : String) : Bool :=
  (List.range (hay.data.length + 1)).any
    (fun k => needle.data.isPrefixOf (hay.data.drop k))

/-! ## Concrete environments used by witnesses and counterexamples -/

/-- A fully successful environment whose generation result is empty. -/
def envEmptyGen : Env :=
  { apiKey := some "k", mediaExists := true, promptExists := true,
    promptText := "instructions", uploadResult := Except.ok ⟨"files/abc123", "uri1", "audio/mp3"⟩,
    statuses := [FileState.ready], generation := Except.ok "", dirname := "/app" }

/-- An environment whose only observed remote state is Pending
(SDK `STATE_UNSPECIFIED`). -/
def envPend : Env :=
  { apiKey := some "k", mediaExists := true, promptExists := true,
    promptText := "instructions", uploadResult := Except.ok ⟨"files/abc123", "uri1", "audio/mp3"⟩,
    statuses := [FileState.pending], generation := Except.ok "r", dirname := "/app" }

/-- An environment polled through Processing, Processing, Ready. -/
def envPoll : Env :=
  { apiKey := some "k", mediaExists := true, promptExists := true,
    promptText := "instructions", uploadResult := Except.ok ⟨"files/abc123", "uri1", "audio/mp3"⟩,
    statuses := [FileState.processing, FileState.processing, FileState.ready],
    generation := Except.ok "txt", dirname := "/app" }

/-- An environment whose remote processing ends in Failed. -/
def envFailedPoll : Env :=
  { apiKey := some "k", mediaExists := true, promptExists := true,
    promptText := "instructions", uploadResult := Except.ok ⟨"files/abc123", "uri1", "audio/mp3"⟩,
    statuses := [FileState.processing, FileState.failed],
    generation := Except.ok "never", dirname := "/app" }

/-- An environment whose media file does not exist. -/
def envNoMedia : Env :=
  { apiKey := some "k", mediaExists := false, promptExists := true,
    promptText := "instructions", uploadResult := Except.ok ⟨"files/abc123", "uri1", "audio/mp3"⟩,
    statuses := [FileState.ready], generation := Except.ok "r", dirname := "/app" }

/-! ## Lemmas about the extraction heuristic -/

theorem firstIdxOf_decomp {l : List Char} {c : Char} {i : Nat}
    (h : firstIdxOf l c = some i) :
    ∃ l₁ l₂, l = l₁ ++ c :: l₂ ∧ l₁.length = i := by
  induction l generalizing i with
  | nil => simp [firstIdxOf] at h
  | cons a t ih =>
    by_cases hac : a = c
    · subst hac
      simp [firstIdxOf] at h
      exact ⟨[], t, rfl, by simp [← h]⟩
    · simp [firstIdxOf, hac, Option.map_eq_some'] at h
      obtain ⟨i', hi', rfl⟩ := h
      obtain ⟨l₁, l₂, rfl, hlen⟩ := ih hi'
      exact ⟨a :: l₁, l₂, rfl, by simp [hlen]⟩

theorem lastIdxOf_decomp {l : List Char} {c : Char} {j : Nat}
    (h : lastIdxOf l c = some j) :
    ∃ l₃ l₄, l = l₃ ++ c :: l₄ ∧ l₃.length = j := by
  unfold lastIdxOf at h
  rw [Option.map_eq_some'] at h
  obtain ⟨k, hk, hj⟩ := h
  obtain ⟨r₁, r₂, hrev, hlen⟩ := firstIdxOf_decomp hk
  have hl : l = r₂.reverse ++ c :: r₁.reverse := by
    have h2 := congrArg List.reverse hrev
    simpa [List.reverse_append] using h2
  refine ⟨r₂.reverse, r₁.reverse, hl, ?_⟩
  have hlen2 : l.length = r₁.length + 1 + r₂.length := by
    have h3 := congrArg List.length hrev
    simp at h3
    omega
  simp
  omega

theorem take_all_cons (l₃ l₄ : List Char) (c : Char) :
    (l₃ ++ c :: l₄).take (l₃.length + 1) = l₃ ++ [c] := by
  induction l₃ with
  | nil => simp
  | cons a t ih => simp [ih]

theorem drop_all_left (l₁ r : List Char) : (l₁ ++ r).drop l₁.length = r := by
  induction l₁ with
  | nil => simp
  | cons a t ih => simp [ih]

theorem split_common_start {l₁ l₂ l₃ l₄ : List Char} {c d : Char}
    (h : l₁ ++ c :: l₂ = l₃ ++ d :: l₄) (hlen : l₁.length < l₃.length) :
    ∃ m, l₃ = l₁ ++ c :: m := by
  induction l₁ generalizing l₃ with
  | nil =>
    cases l₃ with
    | nil => simp at hlen
    | cons b t =>
      simp at h
      exact ⟨t, by simp [h.1]⟩
  | cons a t ih =>
    cases l₃ with
    | nil => simp at hlen
    | cons b t3 =>
      simp at h hlen
      obtain ⟨m, hm⟩ := ih h.2 (by omega)
      exact ⟨m, by simp [h.1, hm]⟩

theorem jsTrim_braced (m : List Char) :
    jsTrim ('\x7b' :: m ++ ['\x7d']) = '\x7b' :: m ++ ['\x7d'] := by
  have h7b : jsWhitespace '\x7b' = false := by decide
  have h7d : jsWhitespace '\x7d' = false := by decide
  simp [jsTrim, List.dropWhile_cons, h7b, h7d]

theorem extractChars_of_lt {l : List Char} {i j : Nat}
    (hf : firstIdxOf l '\x7b' = some i) (hg : lastIdxOf l '\x7d' = some j)
    (hij : i < j) :
    ∃ mid, (l.take (j + 1)).drop i = '\x7b' :: mid ++ ['\x7d'] ∧
      extractChars l = '\x7b' :: mid ++ ['\x7d'] := by
  obtain ⟨l₃, l₄, heq, hl3⟩ := lastIdxOf_decomp hg
  obtain ⟨l₁, l₂, heq1, hl1⟩ := firstIdxOf_decomp hf
  have hpre : ∃ m, l₃ = l₁ ++ '\x7b' :: m := by
    apply split_common_start (heq1.symm.trans heq)
    omega
  obtain ⟨m, hm⟩ := hpre
  have hslice : (l.take (j + 1)).drop i = '\x7b' :: m ++ ['\x7d'] := by
    rw [heq, ← hl3, take_all_cons, hm, List.append_assoc, ← hl1, drop_all_left]
  refine ⟨m, hslice, ?_⟩
  simp only [extractChars, hf, hg]
  rw [hslice]
  exact jsTrim_braced m

theorem extractChars_no_pair {l : List Char}
    (h : firstIdxOf l '\x7b' = none ∨ lastIdxOf l '\x7d' = none) :
    extractChars l = l := by
  rcases h with h | h
  · cases hg : lastIdxOf l '\x7d' <;> simp [extractChars, h, hg]
  · cases hf : firstIdxOf l '\x7b' <;> simp [extractChars, h, hf]

theorem extractChars_of_gt {l : List Char} {i j : Nat}
    (hf : firstIdxOf l '\x7b' = some i) (hg : lastIdxOf l '\x7d' = some j)
    (hij : j < i) :
    extractChars l = [] := by
  simp only [extractChars, hf, hg]
  have hnil : (l.take (j + 1)).drop i = [] := by
    apply List.drop_eq_nil_of_le
    have h1 : (l.take (j + 1)).length ≤ j + 1 := List.length_take_le (j + 1) l
    omega
  rw [hnil]
  rfl

theorem firstIdxOf_ne_lastIdxOf {l : List Char} {i j : Nat}
    (hf : firstIdxOf l '\x7b' = some i) (hg : lastIdxOf l '\x7d' = some j) :
    i ≠ j := by
  intro hij
  obtain ⟨l₁, l₂, heq1, hl1⟩ := firstIdxOf_decomp hf
  obtain ⟨l₃, l₄, heq3, hl3⟩ := lastIdxOf_decomp hg
  have heq : l₁ ++ '\x7b' :: l₂ = l₃ ++ '\x7d' :: l₄ := heq1.symm.trans heq3
  have hlen : l₁.length = l₃.length := by omega
  have := (List.append_inj heq hlen).2
  simp at this

theorem extractChars_braced (m : List Char) :
    extractChars ('\x7b' :: m ++ ['\x7d']) = '\x7b' :: m ++ ['\x7d'] := by
  have hf : firstIdxOf ('\x7b' :: m ++ ['\x7d']) '\x7b' = some 0 := by
    simp [firstIdxOf]
  have hg : lastIdxOf ('\x7b' :: m ++ ['\x7d']) '\x7d' = some (m.length + 1) := by
    unfold lastIdxOf
    have hrev : ('\x7b' :: m ++ ['\x7d'] : List Char).reverse
        = '\x7d' :: (m.reverse ++ ['\x7b']) := by simp
    rw [hrev]
    simp [firstIdxOf]
  simp only [extractChars, hf, hg]
  have hlen : ('\x7b' :: m ++ ['\x7d'] : List Char).length = m.length + 1 + 1 := by
    simp
  rw [← hlen, List.take_length, List.drop_zero]
  exact jsTrim_braced m

theorem extractChars_idem (l : List Char) :
    extractChars (extractChars l) = extractChars l := by
  cases hf : firstIdxOf l '\x7b' with
  | none =>
    have hl := extractChars_no_pair (l := l) (Or.inl hf)
    rw [hl]
    exact hl
  | some i =>
    cases hg : lastIdxOf l '\x7d' with
    | none =>
      have hl := extractChars_no_pair (l := l) (Or.inr hg)
      rw [hl]
      exact hl
    | some j =>
      rcases Nat.lt_trichotomy i j with hij | hij | hij
      · obtain ⟨m, _, hE⟩ := extractChars_of_lt hf hg hij
        rw [hE]
        exact extractChars_braced m
      · exact absurd hij (firstIdxOf_ne_lastIdxOf hf hg)
      · rw [extractChars_of_gt hf hg hij]
        rfl

/-! ## Lemmas about the pipeline -/

theorem pollLoop_spec {l : List FileState} {st : FileState} {n : Nat}
    (h : pollLoop l = some (st, n)) :
    st ≠ FileState.processing ∧ l.take n = List.replicate n FileState.processing := by
  induction l generalizing n with
  | nil => simp [pollLoop] at h
  | cons s rest ih =>
    by_cases hs : s = FileState.processing
    · subst hs
      cases hrest : pollLoop rest with
      | none =>
        rw [pollLoop, if_pos rfl, hrest] at h
        exact Option.noConfusion h
      | some pr =>
        obtain ⟨st', n'⟩ := pr
        rw [pollLoop, if_pos rfl, hrest, Option.map_some'] at h
        injection h with h'
        obtain ⟨hst, hn⟩ := Prod.mk.injEq .. |>.mp h'
        subst hst
        subst hn
        obtain ⟨h1, h2⟩ := ih hrest
        exact ⟨h1, by simp [List.replicate_succ, h2]⟩
    · rw [pollLoop, if_neg hs] at h
      injection h with h'
      obtain ⟨hst, hn⟩ := Prod.mk.injEq .. |>.mp h'
      subst hst
      subst hn
      exact ⟨hs, by simp⟩

set_option maxHeartbeats 1600000 in
theorem getMimeType_error {m : String} {e : PipelineError}
    (h : getMimeType m = Except.error e) :
    ∃ x, e = PipelineError.unsupportedMediaType x := by
  simp only [getMimeType] at h
  repeat' split at h
  all_goals first
  | exact Except.noConfusion h
  | (injection h with h'
     exact ⟨lowerAscii (extname m), h'.symm⟩)

/-- Every run of the pipeline has one of five shapes: polling never
observed a non-processing state (`none`); an error before polling with an
empty trace; remote processing failed; generation failed; or success. -/
theorem transcribeAudio_shape (m p o g : String) (env : Env) :
    transcribeAudio m p o g env = none
    ∨ (∃ e, transcribeAudio m p o g env = some (Except.error e, Trace.empty) ∧
        (e = PipelineError.noApiKey ∨ e = PipelineError.mediaNotFound m ∨
         e = PipelineError.promptNotFound p ∨
         (∃ x, e = PipelineError.unsupportedMediaType x) ∨
         (∃ x, e = PipelineError.uploadFailed x)))
    ∨ (∃ n, pollLoop env.statuses = some (FileState.failed, n) ∧
        transcribeAudio m p o g env
          = some (Except.error PipelineError.remoteProcessingFailed,
              ⟨n + 1, List.replicate n pollDelayMs, 0, []⟩))
    ∨ (∃ n st x, pollLoop env.statuses = some (st, n) ∧ st ≠ FileState.failed ∧
        env.generation = Except.error x ∧
        transcribeAudio m p o g env
          = some (Except.error (PipelineError.generationFailed x),
              ⟨n + 1, List.replicate n pollDelayMs, 1, []⟩))
    ∨ (∃ n st raw, pollLoop env.statuses = some (st, n) ∧ st ≠ FileState.failed ∧
        env.generation = Except.ok raw ∧
        transcribeAudio m p o g env
          = some (Except.ok (extract raw),
              ⟨n + 1, List.replicate n pollDelayMs, 1,
               [(debugFilePath env.dirname, raw), (o, extract raw)]⟩)) := by
  cases hk : env.apiKey with
  | none =>
    exact Or.inr (Or.inl ⟨_, by simp [transcribeAudio, hk], Or.inl rfl⟩)
  | some key =>
    cases hm : env.mediaExists with
    | false =>
      exact Or.inr (Or.inl ⟨_, by simp [transcribeAudio, hk, hm],
        Or.inr (Or.inl rfl)⟩)
    | true =>
      cases hp : env.promptExists with
      | false =>
        exact Or.inr (Or.inl ⟨_, by simp [transcribeAudio, hk, hm, hp],
          Or.inr (Or.inr (Or.inl rfl))⟩)
      | true =>
        cases hmt : getMimeType m with
        | error e =>
          exact Or.inr (Or.inl ⟨e, by simp [transcribeAudio, hk, hm, hp, hmt],
            Or.inr (Or.inr (Or.inr (Or.inl (getMimeType_error hmt))))⟩)
        | ok mt =>
          cases hu : env.uploadResult with
          | error x =>
            exact Or.inr (Or.inl ⟨_, by simp [transcribeAudio, hk, hm, hp, hmt, hu],
              Or.inr (Or.inr (Or.inr (Or.inr ⟨x, rfl⟩)))⟩)
          | ok f =>
            cases hpl : pollLoop env.statuses with
            | none =>
              exact Or.inl (by simp [transcribeAudio, hk, hm, hp, hmt, hu, hpl])
            | some pr =>
              obtain ⟨st, n⟩ := pr
              by_cases hst : st = FileState.failed
              · subst hst
                exact Or.inr (Or.inr (Or.inl ⟨n, rfl,
                  by simp [transcribeAudio, hk, hm, hp, hmt, hu, hpl]⟩))
              · cases hg : env.generation with
                | error x =>
                  exact Or.inr (Or.inr (Or.inr (Or.inl ⟨n, st, x, rfl, hst, rfl,
                    by simp [transcribeAudio, hk, hm, hp, hmt, hu, hpl, hst, hg]⟩)))
                | ok raw =>
                  exact Or.inr (Or.inr (Or.inr (Or.inr ⟨n, st, raw, rfl, hst, rfl,
                    by simp [transcribeAudio, hk, hm, hp, hmt, hu, hpl, hst, hg]⟩)))

/-- When every step up to generation succeeds, the run returns the
extracted text and writes the raw text to the debug artifact and the
extracted text to the output artifact. -/
theorem run_success (m p o g : String) (env : Env) (key : String)
    (f : RemoteFile) (mt : String) (st : FileState) (n : Nat) (raw : String)
    (h1 : env.apiKey = some key) (h2 : env.mediaExists = true)
    (h3 : env.promptExists = true) (h4 : getMimeType m = Except.ok mt)
    (h5 : env.uploadResult = Except.ok f)
    (h6 : pollLoop env.statuses = some (st, n)) (h7 : st ≠ FileState.failed)
    (h8 : env.generation = Except.ok raw) :
    transcribeAudio m p o g env
      = some (Except.ok (extract raw),
          ⟨n + 1, List.replicate n pollDelayMs, 1,
           [(debugFilePath env.dirname, raw), (o, extract raw)]⟩) := by
  simp [transcribeAudio, h1, h2, h3, h4, h5, h6, h7, h8]

/-- When every step up to polling succeeds and polling observes Failed,
the run fails with `remoteProcessingFailed` without invoking generation. -/
theorem run_failed_poll (m p o g : String) (env : Env) (key : String)
    (f : RemoteFile) (mt : String) (n : Nat)
    (h1 : env.apiKey = some key) (h2 : env.mediaExists = true)
    (h3 : env.promptExists = true) (h4 : getMimeType m = Except.ok mt)
    (h5 : env.uploadResult = Except.ok f)
    (h6 : pollLoop env.statuses = some (FileState.failed, n)) :
    transcribeAudio m p o g env
      = some (Except.error PipelineError.remoteProcessingFailed,
          ⟨n + 1, List.replicate n pollDelayMs, 0, []⟩) := by
  simp [transcribeAudio, h1, h2, h3, h4, h5, h6]

/-! ## Claim theorems: ResponseExtractor -/

/-- C1 (corrected): when `rawText` contains no opening brace or no closing
brace, `extract` returns it unchanged; but when both are present and the
last closing brace precedes the first opening brace, the source still
slices (its guard only checks that both indices are not `-1`), producing
the empty string rather than the unchanged input. -/
theorem c1_extract_fallback (s : String) :
    (firstIdxOf s.data '\x7b' = none ∨ lastIdxOf s.data '\x7d' = none →
      extract s = s) ∧
    (∀ i j, firstIdxOf s.data '\x7b' = some i → lastIdxOf s.data '\x7d' = some j →
      j < i → extract s = "") := by
  constructor
  · intro h
    show String.mk (extractChars s.data) = s
    rw [extractChars_no_pair h]
  · intro i j hf hg hij
    show String.mk (extractChars s.data) = ""
    rw [extractChars_of_gt hf hg hij]

/-- Witness for C1: a brace-free string passes through unchanged, and a
string whose closing brace precedes its opening brace collapses to `""`. -/
theorem c1_extract_fallback_witness :
    extract "plain answer" = "plain answer" ∧ extract "\x7dbad\x7b" = "" :=
  ⟨(c1_extract_fallback "plain answer").1 (Or.inl (by decide)),
   (c1_extract_fallback "\x7dbad\x7b").2 4 0 (by decide) (by decide) (by decide)⟩

/-- Counterexample to C1 as stated: on `"\x7dbroken\x7b"` (closing brace
before opening brace) the source returns `""`, not the unchanged input
required by the claim. -/
theorem c1_extract_counterexample :
    extract "\x7dbroken\x7b" = "" ∧ extract "\x7dbroken\x7b" ≠ "\x7dbroken\x7b" := by
  constructor <;> decide

/-- C5 (confirmed): when both braces are found and the first opening brace
precedes the last closing brace, `extract` returns the trimmed slice from
the opening brace to the closing brace inclusive — and, because that slice
begins with a brace and ends with a brace, the trim is the identity, so
the result is exactly the inclusive substring. -/
theorem c5_extract_slice (s : String) (i j : Nat)
    (hf : firstIdxOf s.data '\x7b' = some i) (hg : lastIdxOf s.data '\x7d' = some j)
    (hij : i < j) :
    extract s = String.mk (jsTrim ((s.data.take (j + 1)).drop i)) ∧
    extract s = String.mk ((s.data.take (j + 1)).drop i) := by
  obtain ⟨m, hsl, hE⟩ := extractChars_of_lt hf hg hij
  constructor
  · show String.mk (extractChars s.data) = _
    simp only [extractChars, hf, hg]
  · show String.mk (extractChars s.data) = _
    rw [hE, hsl]

/-- Witness for C5: the spec's round-trip example. -/
theorem c5_extract_slice_witness :
    extract "Here is the result: \x7b\"a\":1\x7d thanks" = "\x7b\"a\":1\x7d" := by
  have h := c5_extract_slice "Here is the result: \x7b\"a\":1\x7d thanks" 20 26
    (by decide) (by decide) (by decide)
  rw [h.2]
  decide

/-- C7 (confirmed): `extract` is idempotent — in fact on every string, in
particular on every string containing at most one qualifying brace pair. -/
theorem c7_extract_idempotent (x : String) :
    extract (extract x) = extract x :=
  congrArg String.mk (extractChars_idem x.data)

/-- Counterexample to C8's pass-through clause as stated: at
`"\x7dx\x7b"` the heuristic does not apply in the spec's sense (§4.5:
both braces found *and* opening index precedes closing index), yet the
source does not pass the input through unchanged — it returns `""`. -/
theorem c8_extract_counterexample :
    specHeuristicApplies "\x7dx\x7b" = false ∧ extract "\x7dx\x7b" ≠ "\x7dx\x7b" := by
  constructor <;> decide

/-! ## Claim theorems: MediaDescriptor -/

/-- C6 (confirmed): for every path whose lower-cased extension is in the
spec's table, classification returns the table's MIME type; for every
path whose lower-cased extension is outside the table, classification
fails with `unsupportedMediaType`, and the thrown message names the
offending extension. -/
theorem c6_mime_classification (p : String) :
    (∀ name mime, (name, mime) ∈ specMimeTable →
      lowerAscii (extname p) = "." ++ name → getMimeType p = Except.ok mime) ∧
    ((∀ name, name ∈ specMimeTable.map Prod.fst →
        lowerAscii (extname p) ≠ "." ++ name) →
      getMimeType p
          = Except.error (PipelineError.unsupportedMediaType (lowerAscii (extname p))) ∧
      ∃ pre post,
        errMessage (PipelineError.unsupportedMediaType (lowerAscii (extname p)))
          = pre ++ lowerAscii (extname p) ++ post) := by
  constructor
  · intro name mime hmem heq
    simp only [specMimeTable, List.mem_cons, List.not_mem_nil, or_false,
      Prod.mk.injEq] at hmem
    rcases hmem with h | h | h | h | h | h | h | h | h | h | h <;>
      obtain ⟨rfl, rfl⟩ := h
    · simp only [getMimeType]
      rw [heq]
      rfl
    · simp only [getMimeType]
      rw [heq]
      rfl
    · simp only [getMimeType]
      rw [heq]
      rfl
    · simp only [getMimeType]
      rw [heq]
      rfl
    · simp only [getMimeType]
      rw [heq]
      rfl
    · simp only [getMimeType]
      rw [heq]
      rfl
    · simp only [getMimeType]
      rw [heq]
      rfl
    · simp only [getMimeType]
      rw [heq]
      rfl
    · simp only [getMimeType]
      rw [heq]
      rfl
    · simp only [getMimeType]
      rw [heq]
      rfl
    · simp only [getMimeType]
      rw [heq]
      rfl
  · intro hne
    have h01 : lowerAscii (extname p) ≠ ".mp3" := hne "mp3" (by simp [specMimeTable])
    have h02 : lowerAscii (extname p) ≠ ".wav" := hne "wav" (by simp [specMimeTable])
    have h03 : lowerAscii (extname p) ≠ ".aac" := hne "aac" (by simp [specMimeTable])
    have h04 : lowerAscii (extname p) ≠ ".ogg" := hne "ogg" (by simp [specMimeTable])
    have h05 : lowerAscii (extname p) ≠ ".flac" := hne "flac" (by simp [specMimeTable])
    have h06 : lowerAscii (extname p) ≠ ".mp4" := hne "mp4" (by simp [specMimeTable])
    have h07 : lowerAscii (extname p) ≠ ".mpeg" := hne "mpeg" (by simp [specMimeTable])
    have h08 : lowerAscii (extname p) ≠ ".mov" := hne "mov" (by simp [specMimeTable])
    have h09 : lowerAscii (extname p) ≠ ".wmv" := hne "wmv" (by simp [specMimeTable])
    have h10 : lowerAscii (extname p) ≠ ".avi" := hne "avi" (by simp [specMimeTable])
    have h11 : lowerAscii (extname p) ≠ ".mkv" := hne "mkv" (by simp [specMimeTable])
    refine ⟨?_, "Tipo de archivo no soportado o desconocido: ",
      ". Por favor, proporcione un archivo de audio o video válido.", rfl⟩
    simp only [getMimeType, if_neg h01, if_neg h02, if_neg h03, if_neg h04,
      if_neg h05, if_neg h06, if_neg h07, if_neg h08, if_neg h09, if_neg h10,
      if_neg h11]

/-- Witness for C6: a supported extension (case-insensitively) classifies
per the table, an unsupported one fails naming the extension. -/
theorem c6_mime_classification_witness :
    getMimeType "song.MP3" = Except.ok "audio/mp3" ∧
    getMimeType "notes.txt" = Except.error (PipelineError.unsupportedMediaType ".txt") :=
  ⟨(c6_mime_classification "song.MP3").1 "mp3" "audio/mp3"
      (by simp [specMimeTable]) (by decide),
   ((c6_mime_classification "notes.txt").2 (by decide)).1⟩

/-! ## Claim theorems: pipeline -/

/-- C2 (corrected): the source performs no emptiness check on the
generation result. When the remote generation operation returns an empty
rawText (and every earlier step succeeded), the run does NOT end in a
Failure outcome: extraction runs on the empty string (yielding the empty
string, since it contains no brace) and both artifacts are written with
the empty string, the run ending in Success. -/
theorem c2_empty_generation (m p o g : String) (env : Env) (key : String)
    (f : RemoteFile) (mt : String) (st : FileState) (n : Nat)
    (h1 : env.apiKey = some key) (h2 : env.mediaExists = true)
    (h3 : env.promptExists = true) (h4 : getMimeType m = Except.ok mt)
    (h5 : env.uploadResult = Except.ok f)
    (h6 : pollLoop env.statuses = some (st, n)) (h7 : st ≠ FileState.failed)
    (h8 : env.generation = Except.ok "") :
    transcribeAudio m p o g env
      = some (Except.ok "",
          ⟨n + 1, List.replicate n pollDelayMs, 1,
           [(debugFilePath env.dirname, ""), (o, "")]⟩) := by
  have h := run_success m p o g env key f mt st n "" h1 h2 h3 h4 h5 h6 h7 h8
  have hE : extract "" = "" := rfl
  rw [hE] at h
  exact h

/-- Witness for C2's amended statement, on `envEmptyGen`. -/
theorem c2_empty_generation_witness :
    transcribeAudio "a.mp3" "p.md" "out.md" "gemini-1.5-pro" envEmptyGen
      = some (Except.ok "",
          ⟨1, List.replicate 0 pollDelayMs, 1,
           [(debugFilePath "/app", ""), ("out.md", "")]⟩) :=
  c2_empty_generation "a.mp3" "p.md" "out.md" "gemini-1.5-pro" envEmptyGen "k"
    ⟨"files/abc123", "uri1", "audio/mp3"⟩ "audio/mp3" FileState.ready 0
    rfl rfl rfl rfl rfl rfl (by decide) rfl

/-- Counterexample to C2 as stated: with an empty generation result the
run ends in Success (the empty string is extracted and persisted), not in
the Failure outcome the claim requires. -/
theorem c2_counterexample :
    envEmptyGen.generation = Except.ok "" ∧
    transcribeAudio "a.mp3" "p.md" "out.md" "g" envEmptyGen
      = some (Except.ok "",
          ⟨1, [], 1, [("/app/debug_response.txt", ""), ("out.md", "")]⟩) :=
  ⟨rfl, rfl⟩

/-- C3 (corrected): the polling loop re-queries, after a fixed
`pollDelayMs` wait per iteration, exactly while the observed state is
Processing — so every state observed before the exit observation is
Processing, any number of Processing-to-Processing transitions is not
treated as failure, and generation is only invoked when the exit
observation is neither Processing nor Failed. The source does not treat
Pending (SDK `STATE_UNSPECIFIED`) as a waiting state: an observation of
any non-Processing state, Pending included, exits the loop, so the claim's
"never while Pending" part fails (see the counterexample). -/
theorem c3_poll_guard (m p o g : String) (env : Env) (st : FileState) (n : Nat)
    (hpoll : pollLoop env.statuses = some (st, n)) :
    st ≠ FileState.processing ∧
    env.statuses.take n = List.replicate n FileState.processing ∧
    (∀ res tr, transcribeAudio m p o g env = some (res, tr) →
      tr.generateCalls ≥ 1 →
      st ≠ FileState.failed ∧ tr.sleeps = List.replicate n pollDelayMs) ∧
    (st ≠ FileState.failed →
      ∀ tr, transcribeAudio m p o g env
        ≠ some (Except.error PipelineError.remoteProcessingFailed, tr)) := by
  obtain ⟨hnp, htake⟩ := pollLoop_spec hpoll
  refine ⟨hnp, htake, ?_, ?_⟩
  · intro res tr hrun hcalls
    rcases transcribeAudio_shape m p o g env with h0 | ⟨e, he, _⟩ |
      ⟨n', hpl, he⟩ | ⟨n', st', x, hpl, hst, hg, he⟩ | ⟨n', st', raw, hpl, hst, hg, he⟩
    · rw [hrun] at h0
      exact Option.noConfusion h0
    · rw [hrun] at he
      injection he with he'
      obtain ⟨-, htr⟩ := Prod.mk.injEq .. |>.mp he'
      subst htr
      simp [Trace.empty] at hcalls
    · rw [hrun] at he
      injection he with he'
      obtain ⟨-, htr⟩ := Prod.mk.injEq .. |>.mp he'
      subst htr
      simp at hcalls
    · rw [hpoll] at hpl
      injection hpl with hpl'
      obtain ⟨hst2, hn2⟩ := Prod.mk.injEq .. |>.mp hpl'
      subst hst2
      subst hn2
      rw [hrun] at he
      injection he with he'
      obtain ⟨-, htr⟩ := Prod.mk.injEq .. |>.mp he'
      subst htr
      exact ⟨hst, rfl⟩
    · rw [hpoll] at hpl
      injection hpl with hpl'
      obtain ⟨hst2, hn2⟩ := Prod.mk.injEq .. |>.mp hpl'
      subst hst2
      subst hn2
      rw [hrun] at he
      injection he with he'
      obtain ⟨-, htr⟩ := Prod.mk.injEq .. |>.mp he'
      subst htr
      exact ⟨hst, rfl⟩
  · intro hstf tr hrun
    rcases transcribeAudio_shape m p o g env with h0 | ⟨e, he, hkind⟩ |
      ⟨n', hpl, he⟩ | ⟨n', st', x, hpl, hst, hg, he⟩ | ⟨n', st', raw, hpl, hst, hg, he⟩
    · rw [hrun] at h0
      exact Option.noConfusion h0
    · rw [hrun] at he
      injection he with he'
      obtain ⟨hres, -⟩ := Prod.mk.injEq .. |>.mp he'
      injection hres with hres'
      rcases hkind with rfl | rfl | rfl | ⟨x, rfl⟩ | ⟨x, rfl⟩ <;>
        exact PipelineError.noConfusion hres'
    · rw [hpoll] at hpl
      injection hpl with hpl'
      obtain ⟨hst2, -⟩ := Prod.mk.injEq .. |>.mp hpl'
      exact hstf hst2
    · rw [hrun] at he
      injection he with he'
      obtain ⟨hres, -⟩ := Prod.mk.injEq .. |>.mp he'
      injection hres with hres'
      exact PipelineError.noConfusion hres'
    · rw [hrun] at he
      injection he with he'
      obtain ⟨hres, -⟩ := Prod.mk.injEq .. |>.mp he'
      exact Except.noConfusion hres

/-- Witness for C3's amended statement: an environment observed through
Processing, Processing, Ready reaches generation without the polling step
being treated as failure, sleeping the fixed delay twice. -/
theorem c3_poll_guard_witness :
    FileState.ready ≠ FileState.failed ∧
    (⟨3, List.replicate 2 pollDelayMs, 1,
      [(debugFilePath "/app", "txt"), ("o.md", "txt")]⟩ : Trace).sleeps
      = List.replicate 2 pollDelayMs :=
  (c3_poll_guard "a.mp3" "p.md" "o.md" "g" envPoll FileState.ready 2 rfl).2.2.1
    (Except.ok "txt")
    ⟨3, List.replicate 2 pollDelayMs, 1,
      [(debugFilePath "/app", "txt"), ("o.md", "txt")]⟩
    rfl (by decide)

/-- Counterexample to C3 as stated: when the only state the status
operation ever returns is Pending (SDK `STATE_UNSPECIFIED`) — so no
terminal state (Ready or Failed) is ever observed — the source still
exits its loop (the observation is not Processing) and invokes generation
(the trace records one generation call). -/
theorem c3_counterexample :
    envPend.statuses = [FileState.pending] ∧
    FileState.pending ≠ FileState.ready ∧
    FileState.pending ≠ FileState.failed ∧
    transcribeAudio "a.mp3" "p.md" "o.md" "g" envPend
      = some (Except.ok "r",
          ⟨1, [], 1, [("/app/debug_response.txt", "r"), ("o.md", "r")]⟩) :=
  ⟨rfl, by decide, by decide, rfl⟩

/-- C4 (corrected): when polling observes the terminal state Failed, the
run ends in a Failure of kind `remoteProcessingFailed` and generation is
never invoked (the trace records zero generation calls and no writes) —
but the error carries a fixed message, not the handle's name: the source's
`throw` at line 150 interpolates nothing. -/
theorem c4_remote_failed (m p o g : String) (env : Env) (key : String)
    (f : RemoteFile) (mt : String) (n : Nat)
    (h1 : env.apiKey = some key) (h2 : env.mediaExists = true)
    (h3 : env.promptExists = true) (h4 : getMimeType m = Except.ok mt)
    (h5 : env.uploadResult = Except.ok f)
    (h6 : pollLoop env.statuses = some (FileState.failed, n)) :
    transcribeAudio m p o g env
      = some (Except.error PipelineError.remoteProcessingFailed,
          ⟨n + 1, List.replicate n pollDelayMs, 0, []⟩) ∧
    errMessage PipelineError.remoteProcessingFailed
      = "El procesamiento del archivo falló en los servidores de Google AI." :=
  ⟨run_failed_poll m p o g env key f mt n h1 h2 h3 h4 h5 h6, rfl⟩

/-- Witness for C4's amended statement, on `envFailedPoll`. -/
theorem c4_remote_failed_witness :
    transcribeAudio "a.mp3" "p.md" "o.md" "g" envFailedPoll
      = some (Except.error PipelineError.remoteProcessingFailed,
          ⟨2, List.replicate 1 pollDelayMs, 0, []⟩) ∧
    errMessage PipelineError.remoteProcessingFailed
      = "El procesamiento del archivo falló en los servidores de Google AI." :=
  c4_remote_failed "a.mp3" "p.md" "o.md" "g" envFailedPoll "k"
    ⟨"files/abc123", "uri1", "audio/mp3"⟩ "audio/mp3" 1
    rfl rfl rfl rfl rfl rfl

/-- Counterexample to C4's "carries the handle's name" part: in a run
whose upload returned the handle named `"files/abc123"` and whose polling
observed Failed, the resulting error's message does not contain the
handle's name (generation is still never invoked, as the claim says). -/
theorem c4_counterexample :
    envFailedPoll.uploadResult = Except.ok ⟨"files/abc123", "uri1", "audio/mp3"⟩ ∧
    transcribeAudio "a.mp3" "p.md" "o.md" "g" envFailedPoll
      = some (Except.error PipelineError.remoteProcessingFailed,
          ⟨2, [5000], 0, []⟩) ∧
    containsStr (errMessage PipelineError.remoteProcessingFailed) "files/abc123"
      = false :=
  ⟨rfl, rfl, rfl⟩

/-- C8 (corrected): the extraction step never fails — once the generation
operation has been invoked (the trace records a generation call) and
returned `raw`, the run's outcome is `Except.ok (extract raw)`, never an
error — and when no opening or no closing brace is found the raw text
passes through unchanged. (The claim's pass-through clause fails on inputs
where both braces are found in the wrong order, where the spec's heuristic
does not apply but the source still slices; see the counterexample.) -/
theorem c8_no_extraction_failure (m p o g : String) (env : Env)
    (res : Except PipelineError String) (tr : Trace) (raw : String)
    (hgen : env.generation = Except.ok raw)
    (hrun : transcribeAudio m p o g env = some (res, tr))
    (hinv : tr.generateCalls = 1) :
    res = Except.ok (extract raw) ∧
    (firstIdxOf raw.data '\x7b' = none ∨ lastIdxOf raw.data '\x7d' = none →
      extract raw = raw) := by
  refine ⟨?_, fun h => ?_⟩
  case refine_2 =>
    show String.mk (extractChars raw.data) = raw
    rw [extractChars_no_pair h]
  rcases transcribeAudio_shape m p o g env with h0 | ⟨e, he, -⟩ |
    ⟨n', hpl, he⟩ | ⟨n', st', x, hpl, hst, hg, he⟩ | ⟨n', st', raw', hpl, hst, hg, he⟩
  · rw [hrun] at h0
    exact Option.noConfusion h0
  · rw [hrun] at he
    injection he with he'
    obtain ⟨-, htr⟩ := Prod.mk.injEq .. |>.mp he'
    subst htr
    simp [Trace.empty] at hinv
  · rw [hrun] at he
    injection he with he'
    obtain ⟨-, htr⟩ := Prod.mk.injEq .. |>.mp he'
    subst htr
    simp at hinv
  · rw [hgen] at hg
    exact Except.noConfusion hg
  · rw [hgen] at hg
    injection hg with hg'
    subst hg'
    rw [hrun] at he
    injection he with he'
    exact (Prod.mk.injEq .. |>.mp he').1

/-- Witness for C8's amended statement, on `envPoll` (raw text `"txt"`,
which contains no brace and passes through unchanged). -/
theorem c8_no_extraction_failure_witness :
    (Except.ok "txt" : Except PipelineError String) = Except.ok (extract "txt") ∧
    extract "txt" = "txt" :=
  have h := c8_no_extraction_failure "a.mp3" "p.md" "o.md" "g" envPoll
    (Except.ok "txt")
    ⟨3, List.replicate 2 pollDelayMs, 1,
      [(debugFilePath "/app", "txt"), ("o.md", "txt")]⟩
    "txt" rfl rfl rfl
  ⟨h.1, h.2 (Or.inl (by decide))⟩

/-- C9 (confirmed): in every successful run, exactly the raw text returned
by the generation operation is written to the debug artifact and exactly
the extracted text to the primary output artifact, in that order, and the
returned value is the extracted text. -/
theorem c9_persist_raw_and_extracted (m p o g : String) (env : Env)
    (raw t : String) (tr : Trace)
    (hgen : env.generation = Except.ok raw)
    (hrun : transcribeAudio m p o g env = some (Except.ok t, tr)) :
    t = extract raw ∧
    tr.writes = [(debugFilePath env.dirname, raw), (o, extract raw)] := by
  rcases transcribeAudio_shape m p o g env with h0 | ⟨e, he, -⟩ |
    ⟨n', hpl, he⟩ | ⟨n', st', x, hpl, hst, hg, he⟩ | ⟨n', st', raw', hpl, hst, hg, he⟩
  · rw [hrun] at h0
    exact Option.noConfusion h0
  · rw [hrun] at he
    injection he with he'
    obtain ⟨hres, -⟩ := Prod.mk.injEq .. |>.mp he'
    exact Except.noConfusion hres
  · rw [hrun] at he
    injection he with he'
    obtain ⟨hres, -⟩ := Prod.mk.injEq .. |>.mp he'
    exact Except.noConfusion hres
  · rw [hrun] at he
    injection he with he'
    obtain ⟨hres, -⟩ := Prod.mk.injEq .. |>.mp he'
    exact Except.noConfusion hres
  · rw [hgen] at hg
    injection hg with hg'
    subst hg'
    rw [hrun] at he
    injection he with he'
    obtain ⟨hres, htr⟩ := Prod.mk.injEq .. |>.mp he'
    injection hres with hres'
    subst htr
    exact ⟨hres', rfl⟩

/-- Witness for C9, on `envPoll`. -/
theorem c9_persist_raw_and_extracted_witness :
    "txt" = extract "txt" ∧
    (⟨3, List.replicate 2 pollDelayMs, 1,
      [(debugFilePath "/app", "txt"), ("o.md", "txt")]⟩ : Trace).writes
      = [(debugFilePath "/app", "txt"), ("o.md", extract "txt")] :=
  c9_persist_raw_and_extracted "a.mp3" "p.md" "o.md" "g" envPoll "txt" "txt"
    ⟨3, List.replicate 2 pollDelayMs, 1,
      [(debugFilePath "/app", "txt"), ("o.md", "txt")]⟩
    rfl rfl

/-- C10 (confirmed): a run that ends in any Failure outcome performs no
write at all — in particular the primary output artifact at `outputPath`
is never written (both `fs.writeFileSync` calls of the source sit after
every `throw` site). -/
theorem c10_no_write_on_failure (m p o g : String) (env : Env)
    (e : PipelineError) (tr : Trace)
    (hrun : transcribeAudio m p o g env = some (Except.error e, tr)) :
    tr.writes = [] ∧ ∀ c, (o, c) ∉ tr.writes := by
  have hw : tr.writes = [] := by
    rcases transcribeAudio_shape m p o g env with h0 | ⟨e', he, -⟩ |
      ⟨n', hpl, he⟩ | ⟨n', st', x, hpl, hst, hg, he⟩ | ⟨n', st', raw', hpl, hst, hg, he⟩
    · rw [hrun] at h0
      exact Option.noConfusion h0
    · rw [hrun] at he
      injection he with he'
      obtain ⟨-, htr⟩ := Prod.mk.injEq .. |>.mp he'
      subst htr
      rfl
    · rw [hrun] at he
      injection he with he'
      obtain ⟨-, htr⟩ := Prod.mk.injEq .. |>.mp he'
      subst htr
      rfl
    · rw [hrun] at he
      injection he with he'
      obtain ⟨-, htr⟩ := Prod.mk.injEq .. |>.mp he'
      subst htr
      rfl
    · rw [hrun] at he
      injection he with he'
      obtain ⟨hres, -⟩ := Prod.mk.injEq .. |>.mp he'
      exact Except.noConfusion hres
  exact ⟨hw, by simp [hw]⟩

/-- Witness for C10: a run failing on a missing media file writes
nothing. -/
theorem c10_no_write_on_failure_witness :
    Trace.empty.writes = ([] : List (String × String)) :=
  (c10_no_write_on_failure "bad.xyz" "p.md" "o.md" "g" envNoMedia
    (PipelineError.mediaNotFound "bad.xyz") Trace.empty rfl).1

end VideoTranscriptions
